import Mathlib

/-!
Verification of the countertrade bot (`src/countertrade.ts`).

The development shallowly embeds the order-mirroring core of the bot:
the event classifier `respondToOrder`, the quantity-sizing pipeline of
`placeCounterOrder` (lines 255-319), the counter-order construction
(lines 336-359), the submission-outcome interpretation (lines 371-392),
`getSymbolInfo`, `checkFetchBalances` and `getDecimalPlaces`.

Numbers: the source uses JavaScript IEEE-754 doubles.  The sizing
pipeline is embedded twice:
* over `ℚ` (exact arithmetic, the intended reading of the formulas),
  used for the algebraic claims about the pipeline; and
* over `JNum` (`ℚ` extended with `inf`, `ninf` and `nan`, with the
  IEEE-754 special-value rules for the operations used by the code;
  finite arithmetic is kept exact and signed zero is not tracked),
  used for the claims about division-by-zero behaviour.
Strings supplied by the exchange are modelled as already parsed where
the code parses them with `Number` / `parseFloat` / unary `+`.
-/

namespace Countertrade

/-! ## Data model -/

/-- Order side (`OrderSideV5` in the source: the strings "Buy" and "Sell"). -/
inductive Side where
  | Buy
  | Sell
deriving DecidableEq, Repr

/-- Order type (`OrderTypeV5` in the source: the strings "Market" and "Limit"). -/
inductive OrderType where
  | Market
  | Limit
deriving DecidableEq, Repr

/-- Order status (`OrderStatusV5` in the source; the string union of the
bybit v5 API). -/
inductive OrderStatus where
  | New
  | PartiallyFilled
  | Untriggered
  | Rejected
  | PartiallyFilledCanceled
  | Filled
  | Cancelled
  | Triggered
  | Deactivated
  | Created
deriving DecidableEq, Repr

/-- The fields of a `WSAccountOrderV5` order event that the bot reads.
String-typed fields are kept as strings exactly as they arrive on the
websocket. -/
structure OrderEvent where
  orderId : String
  orderLinkId : String
  symbol : String
  side : Side
  orderType : OrderType
  orderStatus : OrderStatus
  createType : String
  qty : String
  price : String
  cumExecValue : String
  takeProfit : String
  stopLoss : String
  timeInForce : String
  positionIdx : Nat
deriving DecidableEq, Repr

/-- The fields of the `OrderParamsV5` record built at lines 342-359 of the
source.  `price` is an `Option` because the source sets it to `undefined`
for non-Limit orders. -/
structure OrderParams where
  category : String
  symbol : String
  side : Side
  orderType : OrderType
  qty : String
  price : Option String
  takeProfit : String
  stopLoss : String
  positionIdx : Nat
  timeInForce : String
  reduceOnly : Bool
  closeOnTrigger : Bool
  tpslMode : String
  orderLinkId : String
deriving DecidableEq, Repr

/-- The numeric `lotSizeFilter` constraints of an instrument, after the
`Number(...)` conversions at lines 282-286 of the source. -/
structure LotSizeFilter where
  maxOrderQty : ℚ
  minOrderQty : ℚ
  qtyStep : ℚ
  maxMktOrderQty : ℚ
  minNotionalValue : ℚ
deriving DecidableEq, Repr

/-! ## Event classifier (source lines 223-236) -/

/-- Source line 223: the accepted statuses. -/
def OrderStatusToRespondTo : List OrderStatus :=
  [.New, .Filled, .PartiallyFilled, .Created]

/-- Source lines 230-236: `respondToOrder`. -/
def respondToOrder (orderData : OrderEvent) : Bool :=
  OrderStatusToRespondTo.contains orderData.orderStatus &&
    orderData.createType == "CreateByUser" &&
    !(orderData.orderLinkId.startsWith "counter_")

/-! ## Order transformer (source lines 336-359) -/

/-- Source line 336: `orderData.side === "Buy" ? "Sell" : "Buy"`. -/
def counterSide (side : Side) : Side :=
  if side = Side.Buy then Side.Sell else Side.Buy

/-- Source lines 336-359: construction of the `counterOrder` record from the
original event and the already-formatted quantity string. -/
def counterOrder (orderData : OrderEvent) (counterQtyString : String) : OrderParams :=
  { category := "linear"
    symbol := orderData.symbol
    side := counterSide orderData.side
    orderType := orderData.orderType
    qty := counterQtyString
    price := if orderData.orderType = OrderType.Limit then some orderData.price else none
    takeProfit := orderData.stopLoss
    stopLoss := orderData.takeProfit
    positionIdx := orderData.positionIdx
    timeInForce := orderData.timeInForce
    reduceOnly := false
    closeOnTrigger := false
    tpslMode := "Partial"
    orderLinkId := "counter_" ++ orderData.orderId }

/-! ## Quantity sizing pipeline, exact-arithmetic reading (source lines 255-317)

Each `def` below embeds one of the intermediate `const`s of
`placeCounterOrder`, keeping the source's names.  `Math.round` rounds
half toward positive infinity in JavaScript, hence `⌊x + 1/2⌋`. -/

/-- `Math.round` on a (finite) value. -/
def jsRound (x : ℚ) : ℤ := ⌊x + 1/2⌋

/-- Source lines 255-289: `marginPercentage = tradeValue / equity`,
`counterTradeValue = counterEquity * marginPercentage`,
`initialCounterQty = counterTradeValue / price`. -/
def initialCounterQty (tradeValue tradingEquity counterEquity price : ℚ) : ℚ :=
  counterEquity * (tradeValue / tradingEquity) / price

/-- Source line 292: `Math.round(initialCounterQty / step) * step`. -/
def steppedCounterQty (initial step : ℚ) : ℚ :=
  (jsRound (initial / step) : ℚ) * step

/-- Source lines 295-298: `Math.max(minQty, Math.min(maxQty, steppedCounterQty))`. -/
def boundedCounterQty (minQty maxQty stepped : ℚ) : ℚ :=
  max minQty (min maxQty stepped)

/-- Source lines 301-304: market orders are further capped at `maxMarketQty`. -/
def marketAdjustedCounterQty (orderType : OrderType) (bounded maxMarketQty : ℚ) : ℚ :=
  if orderType = OrderType.Market then min bounded maxMarketQty else bounded

/-- Source lines 307-311: if the notional is below the minimum, recompute the
quantity as `Math.ceil(minNotional / price / step) * step`. -/
def minNotionalAdjustedCounterQty (marketAdjusted price step minNotional : ℚ) : ℚ :=
  if marketAdjusted * price < minNotional then (⌈minNotional / price / step⌉ : ℚ) * step
  else marketAdjusted

/-- Source lines 314-317: `Math.max(minQty, Math.min(maxQty, minNotionalAdjusted))`. -/
def finalCounterQty (tradeValue tradingEquity counterEquity price : ℚ)
    (f : LotSizeFilter) (orderType : OrderType) : ℚ :=
  max f.minOrderQty (min f.maxOrderQty
    (minNotionalAdjustedCounterQty
      (marketAdjustedCounterQty orderType
        (boundedCounterQty f.minOrderQty f.maxOrderQty
          (steppedCounterQty (initialCounterQty tradeValue tradingEquity counterEquity price)
            f.qtyStep))
        f.maxMktOrderQty)
      price f.qtyStep f.minNotionalValue))

/-! ## Quantity sizing pipeline with IEEE-754 special values

`JNum` is `ℚ` extended with the three special values a JavaScript double
can take in this pipeline.  The operations follow IEEE-754 (and the
JavaScript `Math.min`/`Math.max`/`Math.round`/`Math.ceil` semantics):
any operation on `nan` gives `nan`, division of a nonzero finite value
by zero gives a signed infinity, `0/0` gives `nan`, and comparisons with
`nan` are false.  Finite arithmetic is exact and signed zero is not
tracked (every input below is a plain decimal, so neither limitation is
exercised on the paths of interest). -/

inductive JNum where
  | nan
  | inf
  | ninf
  | num (q : ℚ)
deriving DecidableEq, Repr

/-- IEEE-754 division as performed by the `/` operator on doubles. -/
def jdiv : JNum → JNum → JNum
  | .nan, _ => .nan
  | _, .nan => .nan
  | .num a, .num b =>
      if b = 0 then (if a = 0 then .nan else if 0 < a then .inf else .ninf)
      else .num (a / b)
  | .inf, .num b => if b < 0 then .ninf else .inf
  | .ninf, .num b => if b < 0 then .inf else .ninf
  | .num _, .inf => .num 0
  | .num _, .ninf => .num 0
  | .inf, .inf => .nan
  | .inf, .ninf => .nan
  | .ninf, .inf => .nan
  | .ninf, .ninf => .nan

/-- IEEE-754 multiplication as performed by the `*` operator on doubles. -/
def jmul : JNum → JNum → JNum
  | .nan, _ => .nan
  | _, .nan => .nan
  | .num a, .num b => .num (a * b)
  | .inf, .num b => if b = 0 then .nan else if 0 < b then .inf else .ninf
  | .num a, .inf => if a = 0 then .nan else if 0 < a then .inf else .ninf
  | .ninf, .num b => if b = 0 then .nan else if 0 < b then .ninf else .inf
  | .num a, .ninf => if a = 0 then .nan else if 0 < a then .ninf else .inf
  | .inf, .inf => .inf
  | .inf, .ninf => .ninf
  | .ninf, .inf => .ninf
  | .ninf, .ninf => .inf

/-- JavaScript `Math.min` (propagates `nan`). -/
def jmin : JNum → JNum → JNum
  | .nan, _ => .nan
  | _, .nan => .nan
  | .ninf, _ => .ninf
  | _, .ninf => .ninf
  | .inf, x => x
  | x, .inf => x
  | .num a, .num b => .num (min a b)

/-- JavaScript `Math.max` (propagates `nan`). -/
def jmax : JNum → JNum → JNum
  | .nan, _ => .nan
  | _, .nan => .nan
  | .inf, _ => .inf
  | _, .inf => .inf
  | .ninf, x => x
  | x, .ninf => x
  | .num a, .num b => .num (max a b)

/-- JavaScript `Math.round` extended to special values. -/
def jroundJ : JNum → JNum
  | .nan => .nan
  | .inf => .inf
  | .ninf => .ninf
  | .num q => .num (⌊q + 1/2⌋ : ℤ)

/-- JavaScript `Math.ceil` extended to special values. -/
def jceilJ : JNum → JNum
  | .nan => .nan
  | .inf => .inf
  | .ninf => .ninf
  | .num q => .num (⌈q⌉ : ℤ)

/-- The `<` comparison on doubles: false whenever an operand is `nan`. -/
def jlt : JNum → JNum → Bool
  | .nan, _ => false
  | _, .nan => false
  | .num a, .num b => decide (a < b)
  | .inf, _ => false
  | .ninf, .ninf => false
  | .ninf, _ => true
  | .num _, .inf => true
  | .num _, .ninf => false

/-- Source lines 255-317 rendered over `JNum`: the whole numeric part of
`placeCounterOrder`, from `marginPercentage` to `finalCounterQty`, with
IEEE-754 special-value behaviour.  The inputs are the parsed finite
decimals the code starts from. -/
def finalCounterQtyJS (tradeValue tradingEquity counterEquity price : ℚ)
    (f : LotSizeFilter) (orderType : OrderType) : JNum :=
  let marginPercentage := jdiv (.num tradeValue) (.num tradingEquity)
  let counterTradeValue := jmul (.num counterEquity) marginPercentage
  let initial := jdiv counterTradeValue (.num price)
  let stepped := jmul (jroundJ (jdiv initial (.num f.qtyStep))) (.num f.qtyStep)
  let bounded := jmax (.num f.minOrderQty) (jmin (.num f.maxOrderQty) stepped)
  let marketAdjusted :=
    if orderType = OrderType.Market then jmin bounded (.num f.maxMktOrderQty) else bounded
  let notionalValue := jmul marketAdjusted (.num price)
  let minNotionalAdjusted :=
    if jlt notionalValue (.num f.minNotionalValue) then
      jmul (jceilJ (jdiv (jdiv (.num f.minNotionalValue) (.num price)) (.num f.qtyStep)))
        (.num f.qtyStep)
    else marketAdjusted
  jmax (.num f.minOrderQty) (jmin (.num f.maxOrderQty) minNotionalAdjusted)

/-! ## Submission-outcome interpretation (source lines 371-392) -/

/-- A log or notification action performed by the orchestrator. -/
inductive LogLevel where
  | info
  | warn
  | error
deriving DecidableEq, Repr

/-- An observable action of the submission-handling block: a log entry or a
telegram notification. -/
inductive Action where
  | log (level : LogLevel) (message : String)
  | notify (message : String)
deriving DecidableEq, Repr

/-- The part of an exchange response the block reads. -/
structure SubmitResponse where
  retCode : Int
  retMsg : String
deriving DecidableEq, Repr

/-- Source lines 371-392: the `try`/`switch`/`catch` around
`counterRestClient.submitOrder`.  The input is the transport outcome
(`Except.error` is a thrown exception); the block is total — the `catch`
swallows every exception — and returns the actions it performs. -/
def handleSubmission (symbol side : String) :
    Except String SubmitResponse → List Action
  | .ok response =>
      if response.retCode = 110007 then
        [.log .warn "Insufficent balance in countertrade account for order"]
      else
        [.log .info "Countertrade result code", .log .info "Countertrade result message",
         .log .info "Counter order placed:",
         .notify ("Order placed: " ++ symbol ++ " " ++ side)]
  | .error _ =>
      [.log .error "Error placing counter order:",
       .notify ("Error placing order: " ++ symbol ++ " " ++ side)]

/-! ## Per-event fetches and process lifecycle (source lines 150-168, 405-459) -/

/-- The balance record assembled by `getBalanceOfCoin` (source lines 424-428). -/
structure Balance where
  walletBalance : ℚ
  availableToWithdraw : ℚ
  equity : ℚ
deriving DecidableEq, Repr

/-- The part of an instruments-info response that `getSymbolInfo` reads. -/
structure SymbolInfoResponse where
  retCode : Int
  list : List LotSizeFilter
deriving DecidableEq, Repr

/-- Source lines 444-459: `getSymbolInfo`.  On a zero return code with a
nonempty list it returns the first entry; otherwise it throws, and the
`catch` block logs and rethrows (`throw error`), so a transport failure
propagates to the caller as a failure. -/
def getSymbolInfo (response : Except String SymbolInfoResponse) :
    Except String LotSizeFilter :=
  match response with
  | .ok r =>
      match r.list with
      | f :: _ => if r.retCode = 0 then .ok f else .error "Failed to get symbol info"
      | [] => .error "Failed to get symbol info"
  | .error e => .error e

/-- What the process does after a top-level startup step. -/
inductive ProcessOutcome where
  | exit (code : Nat)
  | running
deriving DecidableEq, Repr

/-- Source lines 150-168: `checkFetchBalances` is invoked at module load; it
fetches both balances (each `Option` is the result of `getBalanceOfCoin`,
which returns `null` on any failure), logs them, and then unconditionally
calls `process.exit(0)`. -/
def checkFetchBalances (tradingBalance counterTradingBalance : Option Balance) :
    ProcessOutcome :=
  match tradingBalance, counterTradingBalance with
  | _, _ => ProcessOutcome.exit 0

/-! ## Output formatting (source lines 319, 461-463) -/

/-- Source lines 461-463: `getDecimalPlaces(step) = -Math.floor(Math.log10(step))`.
`Int.log 10 q` is `⌊log10 q⌋` for positive rationals. -/
def getDecimalPlaces (step : ℚ) : ℤ := -(Int.log 10 step)

/-- Number of fractional digits produced by JavaScript
`Number.prototype.toFixed(d)`: exactly `d` digits when `0 ≤ d ≤ 100`, and a
`RangeError` (no string at all) otherwise.  This models the platform
primitive used at source line 319. -/
def toFixedFracDigits (d : ℤ) : Option ℕ :=
  if 0 ≤ d ∧ d ≤ 100 then some d.toNat else none

/-- Source line 319: the number of fractional digits of
`finalCounterQty.toFixed(getDecimalPlaces(step))`, or `none` when `toFixed`
raises. -/
def serializedFracDigits (step : ℚ) : Option ℕ :=
  toFixedFracDigits (getDecimalPlaces step)

/-! ## Helper lemmas -/

/-- Multiples of a positive step are closed under `min`. -/
lemma stepMultiple_min {s a b : ℚ} (hs : 0 ≤ s)
    (ha : ∃ k : ℤ, a = k * s) (hb : ∃ k : ℤ, b = k * s) :
    ∃ k : ℤ, min a b = k * s := by
  obtain ⟨ka, rfl⟩ := ha
  obtain ⟨kb, rfl⟩ := hb
  exact ⟨min ka kb, by rw [Int.cast_min, min_mul_of_nonneg _ _ hs]⟩

/-- Multiples of a positive step are closed under `max`. -/
lemma stepMultiple_max {s a b : ℚ} (hs : 0 ≤ s)
    (ha : ∃ k : ℤ, a = k * s) (hb : ∃ k : ℤ, b = k * s) :
    ∃ k : ℤ, max a b = k * s := by
  obtain ⟨ka, rfl⟩ := ha
  obtain ⟨kb, rfl⟩ := hb
  exact ⟨max ka kb, by rw [Int.cast_max, max_mul_of_nonneg _ _ hs]⟩

/-- The ceiling-based minimum-notional repair never undershoots the minimum
notional: `⌈m / p / s⌉ * s * p ≥ m` for positive `p`, `s`. -/
lemma ceil_repair_ge {m p s : ℚ} (hp : 0 < p) (hs : 0 < s) :
    m ≤ (⌈m / p / s⌉ : ℚ) * s * p := by
  have h1 : m / p / s ≤ (⌈m / p / s⌉ : ℚ) := Int.le_ceil _
  have h2 : m / p / s * s ≤ (⌈m / p / s⌉ : ℚ) * s :=
    mul_le_mul_of_nonneg_right h1 hs.le
  rw [div_mul_cancel₀ _ hs.ne'] at h2
  have h3 : m / p * p ≤ (⌈m / p / s⌉ : ℚ) * s * p :=
    mul_le_mul_of_nonneg_right h2 hp.le
  rwa [div_mul_cancel₀ _ hp.ne'] at h3

/-- Dividing a positive finite value by zero yields `inf`. -/
lemma jdiv_pos_zero {a : ℚ} (ha : 0 < a) : jdiv (.num a) (.num 0) = .inf := by
  simp [jdiv, ha, ha.ne']

/-- Multiplying `inf` by a positive finite value on the left yields `inf`. -/
lemma jmul_pos_inf {a : ℚ} (ha : 0 < a) : jmul (.num a) .inf = .inf := by
  simp [jmul, ha, ha.ne']

/-- Dividing `inf` by a positive finite value yields `inf`. -/
lemma jdiv_inf_pos {b : ℚ} (hb : 0 < b) : jdiv .inf (.num b) = .inf := by
  simp [jdiv, not_lt.mpr hb.le]

/-- Multiplying `inf` by a positive finite value on the right yields `inf`. -/
lemma jmul_inf_pos {b : ℚ} (hb : 0 < b) : jmul .inf (.num b) = .inf := by
  simp [jmul, hb, hb.ne']

/-! ## Theorems -/

/-- C2: `respondToOrder` returns true exactly when the status is in
{New, Filled, PartiallyFilled, Created}, the creation origin is
`CreateByUser`, and the link id does not start with `counter_`; the
decision reads only these three fields of the event. -/
theorem respondToOrder_iff_spec (e : OrderEvent) :
    respondToOrder e = true ↔
      ((e.orderStatus = OrderStatus.New ∨ e.orderStatus = OrderStatus.Filled ∨
        e.orderStatus = OrderStatus.PartiallyFilled ∨ e.orderStatus = OrderStatus.Created) ∧
       e.createType = "CreateByUser" ∧
       (e.orderLinkId.startsWith "counter_") = false) := by
  cases h : e.orderStatus <;>
    simp [respondToOrder, OrderStatusToRespondTo, h, List.contains, and_assoc]

/-- C4: the counter order inverts the side, copies order type, time in force
and position index verbatim, carries a price exactly when the order type is
Limit, sets `reduceOnly` and `closeOnTrigger` to false, and links back to
the original order through the id `counter_` ++ orderId. -/
theorem counterOrder_fields (e : OrderEvent) (q : String) :
    ((e.side = Side.Buy → (counterOrder e q).side = Side.Sell) ∧
     (e.side = Side.Sell → (counterOrder e q).side = Side.Buy)) ∧
    (counterOrder e q).orderType = e.orderType ∧
    (counterOrder e q).timeInForce = e.timeInForce ∧
    (counterOrder e q).positionIdx = e.positionIdx ∧
    (counterOrder e q).price =
      (if e.orderType = OrderType.Limit then some e.price else none) ∧
    ((counterOrder e q).price ≠ none ↔ e.orderType = OrderType.Limit) ∧
    (counterOrder e q).reduceOnly = false ∧
    (counterOrder e q).closeOnTrigger = false ∧
    (counterOrder e q).orderLinkId = "counter_" ++ e.orderId := by
  cases hs : e.side <;> cases ho : e.orderType <;>
    simp [counterOrder, counterSide, hs, ho]

/-- C8: inverting the counter order's side again recovers the original side,
and the counter order's take-profit and stop-loss are the original's
stop-loss and take-profit respectively. -/
theorem counterOrder_roundTrip (e : OrderEvent) (q : String) :
    counterSide ((counterOrder e q).side) = e.side ∧
    (counterOrder e q).takeProfit = e.stopLoss ∧
    (counterOrder e q).stopLoss = e.takeProfit := by
  cases hs : e.side <;> simp [counterOrder, counterSide, hs]

/-- C6: the submission handler logs result code 110007 as a lone warning
(no error entry, nothing rethrown), maps a thrown transport exception to an
error log plus a notification and returns normally, and emits an error-level
log only for thrown exceptions. -/
theorem handleSubmission_outcomes (symbol side : String) :
    (∀ r : SubmitResponse, r.retCode = 110007 →
      handleSubmission symbol side (.ok r) =
        [Action.log LogLevel.warn
          "Insufficent balance in countertrade account for order"]) ∧
    (∀ e : String,
      handleSubmission symbol side (.error e) =
        [Action.log LogLevel.error "Error placing counter order:",
         Action.notify ("Error placing order: " ++ symbol ++ " " ++ side)]) ∧
    (∀ (o : Except String SubmitResponse) (msg : String),
      Action.log LogLevel.error msg ∈ handleSubmission symbol side o →
        ∃ e, o = .error e) := by
  refine ⟨fun r hr => by simp [handleSubmission, hr], fun e => rfl, fun o msg hmem => ?_⟩
  match o with
  | .error e => exact ⟨e, rfl⟩
  | .ok r =>
      by_cases hr : r.retCode = 110007 <;>
        simp [handleSubmission, hr] at hmem

/-- C6 witness: concrete instantiation of the 110007 branch. -/
theorem handleSubmission_outcomes_witness :
    handleSubmission "BTCUSDT" "Sell" (.ok ⟨110007, "ab not enough for new order"⟩) =
      [Action.log LogLevel.warn
        "Insufficent balance in countertrade account for order"] :=
  (handleSubmission_outcomes "BTCUSDT" "Sell").1 ⟨110007, "ab not enough for new order"⟩ rfl

/-- C7: contrary to the claim, a per-event instrument-info failure propagates
out of `getSymbolInfo` (the catch block rethrows), and `checkFetchBalances`
terminates the process with exit code 0 after the startup balance fetches,
whatever their results — not only on configuration errors or operator
shutdown. -/
theorem perEvent_failures_escape :
    (∀ tb cb : Option Balance, checkFetchBalances tb cb = ProcessOutcome.exit 0) ∧
    (∀ e : String, getSymbolInfo (.error e) = .error e) :=
  ⟨fun _ _ => rfl, fun _ => rfl⟩

/-- C3 counterexample: at primary equity 0 the sizer does not fail with a
DivisionByZero condition.  With trade value 100, counter equity 1000, price
50 and constraints (max 100, min 1, step 1, maxMkt 50, minNotional 5) the
IEEE-754 pipeline silently clamps the infinite intermediate to the finite
quantity 100 and processing proceeds to submission; with trade value 0 it
silently produces `nan`. -/
theorem sizer_zero_equity_counterexample :
    finalCounterQtyJS 100 0 1000 50 ⟨100, 1, 1, 50, 5⟩ OrderType.Limit = JNum.num 100 ∧
    JNum.num (100:ℚ) ≠ JNum.nan ∧
    finalCounterQtyJS 0 0 1000 50 ⟨100, 1, 1, 50, 5⟩ OrderType.Limit = JNum.nan := by
  refine ⟨?_, by simp, ?_⟩ <;>
    norm_num [finalCounterQtyJS, jdiv, jmul, jmin, jmax, jroundJ, jceilJ, jlt,
      (by simp : (OrderType.Limit = OrderType.Market) = False)]

/-- C3 amended: with zero primary equity and positive trade value, counter
equity, price and step, the sizer does not fail — the division by zero
yields `inf`, which the bounds clamp collapses to the finite quantity
`maxOrderQty` (for a Limit order whose max-quantity notional meets the
minimum), and the order proceeds; no DivisionByZero condition exists. -/
theorem sizer_zero_equity_amended (tv ce price : ℚ) (f : LotSizeFilter)
    (htv : 0 < tv) (hce : 0 < ce) (hp : 0 < price) (hs : 0 < f.qtyStep)
    (hmm : f.minOrderQty ≤ f.maxOrderQty)
    (hnot : f.minNotionalValue ≤ f.maxOrderQty * price) :
    finalCounterQtyJS tv 0 ce price f OrderType.Limit = JNum.num f.maxOrderQty := by
  have hnot' : ¬ f.maxOrderQty * price < f.minNotionalValue := not_lt.mpr hnot
  have h3 : ¬ price < 0 := not_lt.mpr hp.le
  have h4 : ¬ f.qtyStep < 0 := not_lt.mpr hs.le
  simp [finalCounterQtyJS, jdiv, jmul, jmin, jmax, jroundJ, jlt,
    htv, htv.ne', hce, hce.ne', hp, hp.ne', hs, hs.ne', h3, h4,
    max_eq_right hmm, hnot',
    (by simp : (OrderType.Limit = OrderType.Market) = False)]

/-- C3 amended witness: concrete instantiation of the zero-equity behaviour. -/
theorem sizer_zero_equity_amended_witness :
    finalCounterQtyJS 100 0 1000 50 ⟨100, 1, 1, 50, 5⟩ OrderType.Limit =
      JNum.num ((100:ℚ)) :=
  sizer_zero_equity_amended 100 1000 50 ⟨100, 1, 1, 50, 5⟩ (by norm_num) (by norm_num)
    (by norm_num) (by norm_num) (by norm_num) (by norm_num)

/-- C5: whenever the capped notional is below the minimum notional, the
sizer recomputes the quantity as `⌈minNotional / price / step⌉ * step` — a
multiple of the step whose notional at the reference price is at least the
minimum notional, so the repair never rounds down below the threshold; in
the spec's concrete scenario (quantity 2/5 at price 10, notional 4 < 5,
step 1) the repaired quantity is 1. -/
theorem minNotionalAdjusted_repair (marketAdjusted price step minNotional : ℚ)
    (hp : 0 < price) (hs : 0 < step)
    (hfire : marketAdjusted * price < minNotional) :
    minNotionalAdjustedCounterQty marketAdjusted price step minNotional
        = (⌈minNotional / price / step⌉ : ℚ) * step ∧
    minNotional ≤
      minNotionalAdjustedCounterQty marketAdjusted price step minNotional * price ∧
    (∃ k : ℤ,
      minNotionalAdjustedCounterQty marketAdjusted price step minNotional = k * step) ∧
    minNotionalAdjustedCounterQty (2/5) 10 1 5 = 1 := by
  have heq : minNotionalAdjustedCounterQty marketAdjusted price step minNotional
      = (⌈minNotional / price / step⌉ : ℚ) * step := by
    rw [minNotionalAdjustedCounterQty, if_pos hfire]
  refine ⟨heq, ?_, ⟨_, heq⟩, ?_⟩
  · rw [heq]
    exact ceil_repair_ge hp hs
  · norm_num [minNotionalAdjustedCounterQty, Int.ceil_eq_iff]

/-- C5 witness: the repair equation and the no-undershoot bound at the
spec's scenario values. -/
theorem minNotionalAdjusted_repair_witness :
    minNotionalAdjustedCounterQty (2/5) 10 1 5 = (⌈(5:ℚ) / 10 / 1⌉ : ℚ) * 1 ∧
    (5:ℚ) ≤ minNotionalAdjustedCounterQty (2/5) 10 1 5 * 10 := by
  have h := minNotionalAdjusted_repair (2/5) 10 1 5 (by norm_num) (by norm_num)
    (by norm_num)
  exact ⟨h.1, h.2.1⟩

/-- C9 counterexample: at qtyStep = 10 the computed digit count is
`-⌊log10 10⌋ = -1`, and `toFixed` then raises a RangeError — no decimal
string with "exactly -1 fractional digits" is produced, so the claim fails
for this positive step. -/
theorem serializedFracDigits_counterexample :
    (0:ℚ) < 10 ∧ getDecimalPlaces 10 = -1 ∧ serializedFracDigits 10 = none := by
  have h10 : Int.log 10 (10:ℚ) = 1 := by
    have hcast : ((10:ℕ):ℚ) ^ (1:ℤ) = (10:ℚ) := by norm_num
    have h := Int.log_zpow (R := ℚ) (b := 10) (by norm_num) 1
    rw [hcast] at h
    exact h
  refine ⟨by norm_num, ?_, ?_⟩
  · rw [getDecimalPlaces, h10]
  · rw [serializedFracDigits, getDecimalPlaces, h10, toFixedFracDigits]
    norm_num

/-- C9 amended: the final quantity is serialized with exactly
`-⌊log10 qtyStep⌋` fractional digits whenever that count lies in the range
`[0, 100]` accepted by `toFixed` (equivalently `10^-100 ≤ qtyStep < 10`);
when the count is negative (`qtyStep ≥ 10`) `toFixed` raises a RangeError
and no string is produced. -/
theorem serializedFracDigits_spec :
    (∀ step : ℚ, 0 ≤ getDecimalPlaces step → getDecimalPlaces step ≤ 100 →
      serializedFracDigits step = some (getDecimalPlaces step).toNat) ∧
    (∀ step : ℚ, getDecimalPlaces step < 0 → serializedFracDigits step = none) := by
  constructor
  · intro step h0 h100
    rw [serializedFracDigits, toFixedFracDigits, if_pos ⟨h0, h100⟩]
  · intro step hneg
    rw [serializedFracDigits, toFixedFracDigits, if_neg]
    rintro ⟨h0, -⟩
    exact absurd h0 (not_le.mpr hneg)

/-- C9 witness: step 0.001 is serialized with exactly 3 fractional digits. -/
theorem serializedFracDigits_spec_witness :
    serializedFracDigits (1/1000) = some 3 := by
  have hlog : Int.log 10 ((1:ℚ)/1000) = -3 := by
    have hcast : ((10:ℕ):ℚ) ^ (-3:ℤ) = (1:ℚ)/1000 := by norm_num
    have h := Int.log_zpow (R := ℚ) (b := 10) (by norm_num) (-3)
    rw [hcast] at h
    exact h
  have h := (serializedFracDigits_spec).1 (1/1000)
    (by rw [getDecimalPlaces, hlog]; norm_num)
    (by rw [getDecimalPlaces, hlog]; norm_num)
  rw [h, getDecimalPlaces, hlog]
  rfl

/-- C10: the maximum-market-order cap is applied only before the
minimum-notional repair.  For every Market-order input satisfying the
constraints invariant on which the repair does not fire, the final quantity
is at most `maxMktOrderQty`; but with constraints (max 100, min 1, step 1,
maxMkt 2, minNotional 50) at price 10 the repair fires and the final
quantity 5 exceeds the market cap 2. -/
theorem marketCap_only_before_repair :
    (∀ (tv te ce price : ℚ) (f : LotSizeFilter),
      0 < f.minOrderQty → f.minOrderQty ≤ f.maxMktOrderQty →
      f.maxMktOrderQty ≤ f.maxOrderQty → 0 < f.qtyStep →
      f.minNotionalValue ≤
        marketAdjustedCounterQty OrderType.Market
            (boundedCounterQty f.minOrderQty f.maxOrderQty
              (steppedCounterQty (initialCounterQty tv te ce price) f.qtyStep))
            f.maxMktOrderQty * price →
      finalCounterQty tv te ce price f OrderType.Market ≤ f.maxMktOrderQty) ∧
    (finalCounterQty 0 1 1 10 ⟨100, 1, 1, 2, 50⟩ OrderType.Market = 5 ∧ (2:ℚ) < 5) := by
  constructor
  · intro tv te ce price f hmin h12 h23 hs hnorep
    set stepped := steppedCounterQty (initialCounterQty tv te ce price) f.qtyStep
      with hstepped
    set B := boundedCounterQty f.minOrderQty f.maxOrderQty stepped with hB
    set A := marketAdjustedCounterQty OrderType.Market B f.maxMktOrderQty with hA
    have hAval : A = min B f.maxMktOrderQty := by
      rw [hA, marketAdjustedCounterQty, if_pos rfl]
    have hAle : A ≤ f.maxMktOrderQty := hAval ▸ min_le_right _ _
    have hBge : f.minOrderQty ≤ B := le_max_left _ _
    have hAge : f.minOrderQty ≤ A := hAval ▸ le_min hBge h12
    have hN : minNotionalAdjustedCounterQty A price f.qtyStep f.minNotionalValue = A := by
      rw [minNotionalAdjustedCounterQty, if_neg (not_lt.mpr hnorep)]
    have hfe : finalCounterQty tv te ce price f OrderType.Market
        = max f.minOrderQty (min f.maxOrderQty
            (minNotionalAdjustedCounterQty A price f.qtyStep f.minNotionalValue)) := rfl
    rw [hfe, hN, min_eq_right (hAle.trans h23), max_eq_right hAge]
    exact hAle
  · constructor
    · norm_num [finalCounterQty, initialCounterQty, steppedCounterQty,
        boundedCounterQty, marketAdjustedCounterQty, minNotionalAdjustedCounterQty,
        jsRound]
    · norm_num

/-- C10 witness: concrete no-repair Market-order input on which the final
quantity respects the market cap. -/
theorem marketCap_only_before_repair_witness :
    finalCounterQty 0 1 1 10 ⟨100, 1, 1, 2, 5⟩ OrderType.Market ≤ 2 :=
  (marketCap_only_before_repair).1 0 1 1 10 ⟨100, 1, 1, 2, 5⟩ (by norm_num)
    (by norm_num) (by norm_num) (by norm_num)
    (by norm_num [marketAdjustedCounterQty, boundedCounterQty, steppedCounterQty,
      initialCounterQty, jsRound])

/-- C1 counterexample: the output quantity need not be a multiple of
`qtyStep` even though the constraints invariant (0 < min ≤ maxMkt ≤ max,
step > 0) holds and equities and price are positive: with constraints
(max 10, min 1, step 2, maxMkt 10, minNotional 0), trade value 0, equities
1 and price 1, the final quantity is the clamp bound 1, which is not a
multiple of the step 2. -/
theorem finalCounterQty_counterexample :
    ((0:ℚ) < 1 ∧ (1:ℚ) ≤ 10 ∧ (10:ℚ) ≤ 10 ∧ (0:ℚ) < 2 ∧
      (0:ℚ) < 1 ∧ (0:ℚ) < 1 ∧ (0:ℚ) < 1) ∧
    finalCounterQty 0 1 1 1 ⟨10, 1, 2, 10, 0⟩ OrderType.Limit = 1 ∧
    ¬ ∃ k : ℤ, (1 : ℚ) = k * 2 := by
  refine ⟨by norm_num, ?_, ?_⟩
  · norm_num [finalCounterQty, initialCounterQty, steppedCounterQty,
      boundedCounterQty, marketAdjustedCounterQty, minNotionalAdjustedCounterQty,
      jsRound]
  · rintro ⟨k, hk⟩
    have h2 : ((2 * k : ℤ) : ℚ) = 1 := by push_cast; linarith
    have h3 : (2 * k : ℤ) = 1 := by exact_mod_cast h2
    omega

/-- C1 amended: under the constraints invariant, positive equities and
price, and the additional hypothesis that the three quantity bounds are
themselves multiples of `qtyStep` (as exchange lot-size filters are), the
final quantity is a multiple of `qtyStep`, lies in
`[minOrderQty, maxOrderQty]`, and — unless the pre-clamp quantity exceeded
`maxOrderQty` and was clamped down — its notional at the reference price is
at least `minNotionalValue`. -/
theorem finalCounterQty_spec (tv te ce price : ℚ) (f : LotSizeFilter) (ot : OrderType)
    (hmin : 0 < f.minOrderQty)
    (h12 : f.minOrderQty ≤ f.maxMktOrderQty)
    (h23 : f.maxMktOrderQty ≤ f.maxOrderQty)
    (hs : 0 < f.qtyStep)
    (hte : 0 < te) (hce : 0 < ce) (hp : 0 < price)
    (hm1 : ∃ k : ℤ, f.minOrderQty = k * f.qtyStep)
    (hm2 : ∃ k : ℤ, f.maxOrderQty = k * f.qtyStep)
    (hm3 : ∃ k : ℤ, f.maxMktOrderQty = k * f.qtyStep) :
    (∃ k : ℤ, finalCounterQty tv te ce price f ot = k * f.qtyStep) ∧
    f.minOrderQty ≤ finalCounterQty tv te ce price f ot ∧
    finalCounterQty tv te ce price f ot ≤ f.maxOrderQty ∧
    (minNotionalAdjustedCounterQty
        (marketAdjustedCounterQty ot
          (boundedCounterQty f.minOrderQty f.maxOrderQty
            (steppedCounterQty (initialCounterQty tv te ce price) f.qtyStep))
          f.maxMktOrderQty)
        price f.qtyStep f.minNotionalValue ≤ f.maxOrderQty →
      f.minNotionalValue ≤ finalCounterQty tv te ce price f ot * price) := by
  set stepped := steppedCounterQty (initialCounterQty tv te ce price) f.qtyStep
    with hstepped
  set B := boundedCounterQty f.minOrderQty f.maxOrderQty stepped with hB
  set A := marketAdjustedCounterQty ot B f.maxMktOrderQty with hA
  set N := minNotionalAdjustedCounterQty A price f.qtyStep f.minNotionalValue with hN
  have hfe : finalCounterQty tv te ce price f ot = max f.minOrderQty (min f.maxOrderQty N) :=
    rfl
  have hms : ∃ k : ℤ, stepped = k * f.qtyStep :=
    ⟨jsRound (initialCounterQty tv te ce price / f.qtyStep), rfl⟩
  have hmB : ∃ k : ℤ, B = k * f.qtyStep :=
    stepMultiple_max hs.le hm1 (stepMultiple_min hs.le hm2 hms)
  have hmA : ∃ k : ℤ, A = k * f.qtyStep := by
    rw [hA, marketAdjustedCounterQty]
    split
    · exact stepMultiple_min hs.le hmB hm3
    · exact hmB
  have hmN : ∃ k : ℤ, N = k * f.qtyStep := by
    rw [hN, minNotionalAdjustedCounterQty]
    split
    · exact ⟨⌈f.minNotionalValue / price / f.qtyStep⌉, rfl⟩
    · exact hmA
  refine ⟨?_, ?_, ?_, ?_⟩
  · rw [hfe]
    exact stepMultiple_max hs.le hm1 (stepMultiple_min hs.le hm2 hmN)
  · rw [hfe]
    exact le_max_left _ _
  · rw [hfe]
    exact max_le (h12.trans h23) (min_le_left _ _)
  · intro hNle
    rw [hfe, min_eq_right hNle]
    by_cases hfire : A * price < f.minNotionalValue
    · have hNval : N = (⌈f.minNotionalValue / price / f.qtyStep⌉ : ℚ) * f.qtyStep := by
        rw [hN, minNotionalAdjustedCounterQty, if_pos hfire]
      have hrep : f.minNotionalValue ≤ N * price := by
        rw [hNval]
        exact ceil_repair_ge hp hs
      calc f.minNotionalValue ≤ N * price := hrep
        _ ≤ max f.minOrderQty N * price :=
            mul_le_mul_of_nonneg_right (le_max_right _ _) hp.le
    · have hNval : N = A := by
        rw [hN, minNotionalAdjustedCounterQty, if_neg hfire]
      have hAp : f.minNotionalValue ≤ A * price := not_lt.mp hfire
      calc f.minNotionalValue ≤ A * price := hAp
        _ = N * price := by rw [hNval]
        _ ≤ max f.minOrderQty N * price :=
            mul_le_mul_of_nonneg_right (le_max_right _ _) hp.le

/-- C1 witness: the amended sizer guarantees at the spec's Scenario-1-like
concrete input (trade value 500, primary equity 10000, counter equity 1000,
price 100, constraints max 10, min 1, step 1, maxMkt 10, minNotional 5). -/
theorem finalCounterQty_spec_witness :
    (∃ k : ℤ, finalCounterQty 500 10000 1000 100 ⟨10, 1, 1, 10, 5⟩ OrderType.Limit = k * 1) ∧
    (1:ℚ) ≤ finalCounterQty 500 10000 1000 100 ⟨10, 1, 1, 10, 5⟩ OrderType.Limit ∧
    finalCounterQty 500 10000 1000 100 ⟨10, 1, 1, 10, 5⟩ OrderType.Limit ≤ 10 ∧
    (minNotionalAdjustedCounterQty
        (marketAdjustedCounterQty OrderType.Limit
          (boundedCounterQty 1 10
            (steppedCounterQty (initialCounterQty 500 10000 1000 100) 1))
          10)
        100 1 5 ≤ 10 →
      (5:ℚ) ≤ finalCounterQty 500 10000 1000 100 ⟨10, 1, 1, 10, 5⟩ OrderType.Limit * 100) :=
  finalCounterQty_spec 500 10000 1000 100 ⟨10, 1, 1, 10, 5⟩ OrderType.Limit
    (by norm_num) (by norm_num) (by norm_num) (by norm_num) (by norm_num)
    (by norm_num) (by norm_num)
    ⟨1, by norm_num⟩ ⟨10, by norm_num⟩ ⟨10, by norm_num⟩

end Countertrade
